import Mathlib

/-!
Shallow embedding of the scan-orchestration core of the `aws-ops-agent`
repository, together with theorems checking the natural-language
specification against it.

Embedded source files:
* `ops_agent/core.py` — `Severity`, `ActionStatus`, `Finding`, `SkillResult`
  with its derived `total_impact` / `critical_count` properties.
* `ops_agent/aws_client.py` — `parallel_regions` (region fan-out).
* `ops_agent/dashboard/jobs.py` — `ScanJobStatus`, `ScanJob`, `JobStore`
  (`create`, `get`, `update`).
* `ops_agent/dashboard/server.py` — the `scan_skill`, `scan_all` and
  `org_scan` endpoints' submit paths and the `org_scan._run` background task,
  including its mutation of the global process environment around each
  member-account scanner call.

Python floats are modelled as `ℚ`; wall-clock timestamps are modelled as
abstract `Nat` instants supplied by the caller; the process environment
(`os.environ`) is modelled as a function `String → Option String` threaded
through the orchestrator exactly where the source reads and writes it.
External collaborators (the org-tree provider, region discovery, STS
assume-role, and the scanners themselves) are parameters; a call that can
raise is a value of `Except String _`.
-/

/-- `ops_agent/core.py::Severity`. -/
inductive Severity
  | CRITICAL
  | HIGH
  | MEDIUM
  | LOW
  | INFO
deriving DecidableEq

/-- `ops_agent/core.py::ActionStatus`. -/
inductive ActionStatus
  | PENDING
  | APPROVED
  | EXECUTED
  | SKIPPED
deriving DecidableEq

/-- `ops_agent/core.py::Finding`. `monthly_impact` (a Python float) is
modelled as `ℚ`; the `timestamp` default-factory value is a plain string. -/
structure Finding where
  skill : String
  title : String
  severity : Severity
  description : String
  resource_id : String
  account_id : String
  region : String
  monthly_impact : ℚ
  recommended_action : String
  action_status : ActionStatus
  auto_remediate : Bool
  metadata : List (String × String)
  timestamp : String
deriving DecidableEq

/-- `ops_agent/core.py::SkillResult` (the data fields; the two derived
properties follow as functions). -/
structure SkillResult where
  skill_name : String
  findings : List Finding
  duration_seconds : ℚ
  accounts_scanned : Nat
  regions_scanned : Nat
  errors : List String
deriving DecidableEq

/-- `SkillResult.total_impact`: `sum(f.monthly_impact for f in self.findings)`,
a left fold starting at 0 exactly as Python's `sum`. -/
def SkillResult.total_impact (r : SkillResult) : ℚ :=
  r.findings.foldl (fun acc f => acc + f.monthly_impact) 0

/-- `SkillResult.critical_count`:
`sum(1 for f in self.findings if f.severity == Severity.CRITICAL)`. -/
def SkillResult.critical_count (r : SkillResult) : Nat :=
  r.findings.foldl (fun acc f => if f.severity = Severity.CRITICAL then acc + 1 else acc) 0

/-- The orchestrator's post-scan stamping of one finding:
`f.account_id = aid` (`dashboard/server.py:249` and `cli.py:148`). -/
def stampFinding (aid : String) (f : Finding) : Finding :=
  { f with account_id := aid }

/-- `ops_agent/aws_client.py::parallel_regions`. The thread pool is created
with `min(len(regions), max_workers)` workers; `ThreadPoolExecutor` raises
`ValueError` when that bound is 0, before any region runs.  Each region's
result extends the output list; a region whose `fn` raises is silently
dropped (`except Exception: pass`).  The completion order of the real
thread pool is nondeterministic; this embedding collects in submission
order, one of the admissible schedules. -/
def parallel_regions {α : Type} (fn : String → Except String (List α))
    (regions : List String) (max_workers : Nat) : Except String (List α) :=
  if min regions.length max_workers = 0 then
    Except.error "max_workers must be greater than 0"
  else
    Except.ok (regions.foldl
      (fun results r =>
        match fn r with
        | Except.ok items => results ++ items
        | Except.error _ => results)
      [])

/-- Spec-side description of one region's contribution to the fan-out:
its findings when the scanner succeeded, nothing when it raised. -/
def successFindings {α : Type} (x : Except String (List α)) : List α :=
  match x with
  | Except.ok l => l
  | Except.error _ => []

/-- Spec-side description of the fan-out output: the union (concatenation)
of the findings of the regions where the scanner succeeded. -/
def unionOfSuccesses {α : Type} (fn : String → Except String (List α)) :
    List String → List α
  | [] => []
  | r :: rs => successFindings (fn r) ++ unionOfSuccesses fn rs

/-- The process environment `os.environ`, modelled as a total map from
variable names to optional values (absent = `none`).  It is the one piece
of process-wide mutable state the org-scan loop writes credentials into. -/
def Env : Type := String → Option String

/-- `os.environ[k] = v`. -/
def Env.set (e : Env) (k v : String) : Env :=
  fun x => if x = k then some v else e x

/-- Restoring one key from a saved value: `os.environ.pop(k, None)` when the
saved value is `None`, `os.environ[k] = old` otherwise.  Both set the key to
exactly the saved optional value. -/
def Env.restoreKey (e : Env) (k : String) (v : Option String) : Env :=
  fun x => if x = k then v else e x

/-- The temporary credentials returned by
`ops_agent/aws_client.py::assume_role_session` (STS `Credentials` dict). -/
structure Creds where
  AccessKeyId : String
  SecretAccessKey : String
  SessionToken : String
deriving DecidableEq

/-- The three environment variables `org_scan._run` writes the member
credentials into (`dashboard/server.py:231`). -/
def credEnvKeys : List String :=
  ["AWS_ACCESS_KEY_ID", "AWS_SECRET_ACCESS_KEY", "AWS_SESSION_TOKEN"]

/-- `old_env[k] = os.environ.get(k)` for the three credential keys
(`dashboard/server.py:232-233`). -/
def saveOldEnv (e : Env) : List (String × Option String) :=
  credEnvKeys.map (fun k => (k, e k))

/-- `os.environ[...] = creds[...]` for the three credential keys
(`dashboard/server.py:234-236`). -/
def setCredsEnv (e : Env) (c : Creds) : Env :=
  ((e.set "AWS_ACCESS_KEY_ID" c.AccessKeyId).set
      "AWS_SECRET_ACCESS_KEY" c.SecretAccessKey).set
    "AWS_SESSION_TOKEN" c.SessionToken

/-- The `finally` block restoring the saved values
(`dashboard/server.py:241-246`). -/
def restoreEnv (e : Env) (old : List (String × Option String)) : Env :=
  old.foldl (fun acc kv => acc.restoreKey kv.1 kv.2) e

/-- One `{id, name}` account record of the org tree
(`aws_client.py::build_org_tree`). -/
structure AccountRef where
  id : String
  name : String
deriving DecidableEq

/-- One `{id, accounts}` organizational-unit record of the org tree. -/
structure OUInfo where
  id : String
  accounts : List AccountRef
deriving DecidableEq

/-- The org tree `{ou_name: {id, accounts}}` as an insertion-ordered dict. -/
abbrev OrgTree := List (String × OUInfo)

/-- Python `d[k] = v` on an insertion-ordered dict modelled as an
association list: replace the value in place if the key exists, append
otherwise. -/
def dictInsert {α : Type} : List (String × α) → String → α → List (String × α)
  | [], k, v => [(k, v)]
  | (k', v') :: rest, k, v =>
      if k' = k then (k, v) :: rest else (k', v') :: dictInsert rest k v

/-- Python `d.get(k)` on an insertion-ordered dict. -/
def dictGet {α : Type} : List (String × α) → String → Option α
  | [], _ => none
  | (k', v') :: rest, k => if k' = k then some v' else dictGet rest k

/-- The per-skill summary stored under `acct_data["skills"][s.name]`
(`dashboard/server.py:250-254`). -/
structure SkillSummary where
  findings_count : Nat
  monthly_impact : ℚ
  findings : List Finding
deriving DecidableEq

/-- One account's entry in the org-scan result tree
(`dashboard/server.py:208-212`). -/
structure AcctData where
  name : String
  findings_count : Nat
  critical_count : Nat
  monthly_impact : ℚ
  skills : List (String × SkillSummary)
  error : Option String
deriving DecidableEq

/-- The `summary` block of the org-scan result
(`dashboard/server.py:298-302`). -/
structure OrgSummary where
  total_findings : Nat
  total_monthly_impact : ℚ
  total_critical : Nat
deriving DecidableEq

/-- The accounts of the org-scan result grouped by OU name:
`{ou_name: {"accounts": {account_id: acct_data}}}`. -/
abbrev ByOU := List (String × List (String × AcctData))

/-- The full `org_result` dict (`dashboard/server.py:296-303`). -/
structure OrgResult where
  by_ou : ByOU
  summary : OrgSummary
deriving DecidableEq

/-- `ops_agent/dashboard/jobs.py::ScanJobStatus`. -/
inductive ScanJobStatus
  | PENDING
  | RUNNING
  | COMPLETED
  | FAILED
deriving DecidableEq

/-- The `.value` string of a `ScanJobStatus` member. -/
def ScanJobStatus.value : ScanJobStatus → String
  | .PENDING => "pending"
  | .RUNNING => "running"
  | .COMPLETED => "completed"
  | .FAILED => "failed"

/-- `ops_agent/dashboard/jobs.py::ScanJob`.  Timestamps are abstract `Nat`
instants. -/
structure ScanJob where
  id : String
  status : ScanJobStatus
  skill_names : List String
  created_at : Nat
  completed_at : Option Nat
  results : Option (List SkillResult)
  org_results : Option OrgResult
  error : Option String
deriving DecidableEq

/-- The keyword arguments accepted by `JobStore.update`: each field of
`ScanJob` that some caller passes (`hasattr` holds for all of them).  A
`none` outer layer means the keyword was not passed. -/
structure UpdateArgs where
  status : Option ScanJobStatus
  completed_at : Option (Option Nat)
  results : Option (Option (List SkillResult))
  org_results : Option (Option OrgResult)
  error : Option (Option String)
deriving DecidableEq

/-- The body of `JobStore.update` applied to one job
(`dashboard/jobs.py:52-56`): set every passed attribute, then, when the
passed `status` is terminal, stamp `completed_at` with the current time. -/
def updateJob (j : ScanJob) (kw : UpdateArgs) (now : Nat) : ScanJob :=
  let j1 : ScanJob :=
    { j with
      status := kw.status.getD j.status,
      completed_at := kw.completed_at.getD j.completed_at,
      results := kw.results.getD j.results,
      org_results := kw.org_results.getD j.org_results,
      error := kw.error.getD j.error }
  if kw.status = some ScanJobStatus.COMPLETED ∨ kw.status = some ScanJobStatus.FAILED then
    { j1 with completed_at := some now }
  else
    j1

/-- `ops_agent/dashboard/jobs.py::JobStore` — the in-memory `_jobs` dict. -/
structure JobStore where
  jobs : List (String × ScanJob)
deriving DecidableEq

/-- `JobStore.create`: build a fresh PENDING job and insert it.  The
generated uuid and the creation instant are supplied by the caller. -/
def JobStore.create (st : JobStore) (skill_names : List String)
    (job_id : String) (now : Nat) : JobStore × ScanJob :=
  let job : ScanJob :=
    { id := job_id, status := ScanJobStatus.PENDING, skill_names := skill_names,
      created_at := now, completed_at := none, results := none,
      org_results := none, error := none }
  (⟨dictInsert st.jobs job_id job⟩, job)

/-- `JobStore.get`. -/
def JobStore.get (st : JobStore) (job_id : String) : Option ScanJob :=
  dictGet st.jobs job_id

/-- `JobStore.update`: no-op on an unknown id, otherwise `updateJob`. -/
def JobStore.update (st : JobStore) (job_id : String) (kw : UpdateArgs)
    (now : Nat) : JobStore :=
  match dictGet st.jobs job_id with
  | none => st
  | some j => ⟨dictInsert st.jobs job_id (updateJob j kw now)⟩

/-- A registered skill (`ops_agent/core.py::BaseSkill` as seen by the
orchestrator): a name and a `scan(regions, profile, account_id)` callable.
The scanner may read the global environment (the default boto3 session
does), so `scan` also receives the current `Env`; a raising scanner is an
`Except.error`. -/
structure Skill where
  name : String
  scan : List String → Option String → Option String → Env → Except String SkillResult

/-- The skill registry dict `name → skill` (`SkillRegistry._skills`). -/
abbrev Registry := List (String × Skill)

/-- `acct_data` as initialised for each member account
(`dashboard/server.py:208-212`). -/
def initAcctData (aname : String) : AcctData :=
  { name := aname, findings_count := 0, critical_count := 0,
    monthly_impact := 0, skills := [], error := none }

/-- The per-account error note written by the `except` handler
(`dashboard/server.py:260`). -/
def assumeFailMsg (role aid e : String) : String :=
  "Failed to assume role " ++ role ++ " in " ++ aid ++ ": " ++ e

/-- Accumulating one scanner's (already stamped) result into `acct_data`
(`dashboard/server.py:250-257`). -/
def addSkillResult (acc : AcctData) (sname : String) (r : SkillResult) : AcctData :=
  { acc with
    skills := acc.skills ++ [(sname, ⟨r.findings.length, r.total_impact, r.findings⟩)],
    findings_count := acc.findings_count + r.findings.length,
    critical_count := acc.critical_count + r.critical_count,
    monthly_impact := acc.monthly_impact + r.total_impact }

/-- Outcome of the per-account skill loop: either it finished, or some
scanner raised after the listed accumulations (the exception reaches the
per-account `except` once the `finally` has restored the environment). -/
inductive LoopOut
  | done (acc : AcctData)
  | raised (acc : AcctData) (e : String)
deriving DecidableEq

/-- The `for s in skills_to_run` loop of `org_scan._run`
(`dashboard/server.py:225-257`): save the three env keys, write the member
credentials into the global environment, run the scanner with
`profile=None` against that environment, restore the environment, then
stamp and accumulate the result. -/
def runSkillsLoop (regions : List String) (aid : String) (creds : Creds) :
    List Skill → Env → AcctData → Env × LoopOut
  | [], env, acc => (env, LoopOut.done acc)
  | s :: rest, env, acc =>
      let old := saveOldEnv env
      let env1 := setCredsEnv env creds
      match s.scan regions none (some aid) env1 with
      | Except.error e => (restoreEnv env1 old, LoopOut.raised acc e)
      | Except.ok result =>
          let stamped : SkillResult :=
            { result with findings := result.findings.map (stampFinding aid) }
          runSkillsLoop regions aid creds rest (restoreEnv env1 old)
            (addSkillResult acc s.name stamped)

/-- Processing one member account (`dashboard/server.py:205-262`): assume
the cross-account role, run every selected skill, and on any exception
record the error note in the account's entry and move on. -/
def processAccount (skills : List Skill) (regions : List String) (role : String)
    (assume : String → Except String Creds) (env : Env) (a : AccountRef) :
    Env × AcctData :=
  let acct0 := initAcctData a.name
  match assume a.id with
  | Except.error e =>
      (env, { acct0 with error := some (assumeFailMsg role a.id e) })
  | Except.ok creds =>
      match runSkillsLoop regions a.id creds skills env acct0 with
      | (env', LoopOut.done acc) => (env', acc)
      | (env', LoopOut.raised acc e) =>
          (env', { acc with error := some (assumeFailMsg role a.id e) })

/-- The `for acct in ou_info["accounts"]` loop building `ou_accounts`. -/
def processAccounts (skills : List Skill) (regions : List String) (role : String)
    (assume : String → Except String Creds) :
    List AccountRef → Env → List (String × AcctData) →
      Env × List (String × AcctData)
  | [], env, acc => (env, acc)
  | a :: rest, env, acc =>
      let (env', d) := processAccount skills regions role assume env a
      processAccounts skills regions role assume rest env' (dictInsert acc a.id d)

/-- The `for ou_name, ou_info in org_tree.items()` loop building
`ou_results` (`dashboard/server.py:203-263`). -/
def processOUs (skills : List Skill) (regions : List String) (role : String)
    (assume : String → Except String Creds) :
    OrgTree → Env → ByOU → Env × ByOU
  | [], env, acc => (env, acc)
  | (ou_name, ou_info) :: rest, env, acc =>
      let (env', ou_accounts) :=
        processAccounts skills regions role assume ou_info.accounts env []
      processOUs skills regions role assume rest env'
        (dictInsert acc ou_name ou_accounts)

/-- `mgmt_data` as initialised before the management-account scan
(`dashboard/server.py:266-270`). -/
def initMgmtData : AcctData :=
  { name := "Management Account", findings_count := 0, critical_count := 0,
    monthly_impact := 0, skills := [], error := none }

/-- The management-account scan loop (`dashboard/server.py:271-282`).  It
runs with the orchestrator's own profile, outside any per-account `try`:
a raising scanner propagates to the caller. -/
def scanManagementLoop (regions : List String) (p : Option String)
    (mgmt_id : String) (env : Env) :
    List Skill → AcctData → Except String AcctData
  | [], acc => Except.ok acc
  | s :: rest, acc =>
      match s.scan regions p (some mgmt_id) env with
      | Except.error e => Except.error e
      | Except.ok result =>
          let stamped : SkillResult :=
            { result with findings := result.findings.map (stampFinding mgmt_id) }
          scanManagementLoop regions p mgmt_id env rest
            (addSkillResult acc s.name stamped)

/-- `ou_results.setdefault("Management", {"accounts": {}})`
(`dashboard/server.py:284`). -/
def setdefaultManagement (b : ByOU) : ByOU :=
  if b.any (fun kv => kv.1 = "Management") then b else b ++ [("Management", [])]

/-- `ou_results["Management"]["accounts"][mgmt_id] = mgmt_data`
(`dashboard/server.py:285`). -/
def insertManagementAccount (b : ByOU) (mgmt_id : String) (d : AcctData) : ByOU :=
  b.map (fun kv =>
    if kv.1 = "Management" then (kv.1, dictInsert kv.2 mgmt_id d) else kv)

/-- Round a rational to the nearest integer, ties to the even neighbour —
Python's rounding mode. -/
def roundHalfEven (q : ℚ) : ℤ :=
  let f := ⌊q⌋
  let frac := q - (f : ℚ)
  if frac < 1 / 2 then f
  else if 1 / 2 < frac then f + 1
  else if f % 2 = 0 then f else f + 1

/-- Python `round(x, 2)` on the modelled rationals: round to the nearest
hundredth, ties to even. -/
def round2 (q : ℚ) : ℚ := (roundHalfEven (q * 100) : ℚ) / 100

/-- The summary-accumulation loop over every account entry of every OU
(`dashboard/server.py:287-302`), producing the `summary` dict with the
grand impact rounded to two decimals. -/
def summarize (b : ByOU) : OrgSummary :=
  let t : Nat × ℚ × Nat :=
    b.foldl
      (fun t ou =>
        ou.2.foldl
          (fun t acct =>
            (t.1 + acct.2.findings_count,
             t.2.1 + acct.2.monthly_impact,
             t.2.2 + acct.2.critical_count))
          t)
      (0, 0, 0)
  ⟨t.1, round2 t.2.1, t.2.2⟩

/-- The final `job_store.update` a run of `_run` performs: COMPLETED with
the org result, or FAILED with the stringified exception. -/
inductive JobOutcome
  | completed (org : OrgResult)
  | failed (e : String)
deriving DecidableEq

/-- `regions = req.regions or await asyncio.to_thread(get_regions, None, p)`
(`dashboard/server.py:198`): an empty or absent request list is falsy, so
region discovery runs (and may raise). -/
def resolveRegions (reqRegions : Option (List String))
    (discovered : Except String (List String)) : Except String (List String) :=
  match reqRegions with
  | some (r :: rs) => Except.ok (r :: rs)
  | _ => discovered

/-- `p = req.profile or app.state.profile`: an absent or empty request
profile falls back to the app profile. -/
def resolveProfile (reqProfile appProfile : Option String) : Option String :=
  match reqProfile with
  | some s => if s = "" then appProfile else some s
  | none => appProfile

/-- The body of `org_scan._run` (`dashboard/server.py:194-308`) without the
initial RUNNING update: fetch the org tree, regions and management id
(any failure aborts the whole run), walk every OU and account, scan the
management account, merge, summarise.  Returns the final environment and
the terminal job update. -/
def orgScanRun (skills : List Skill) (role : String)
    (reqRegions : Option (List String)) (p : Option String)
    (treeRes : Except String OrgTree)
    (regionsRes : Except String (List String))
    (mgmtIdRes : Except String String)
    (assume : String → Except String Creds) (env : Env) : Env × JobOutcome :=
  match treeRes with
  | Except.error e => (env, JobOutcome.failed e)
  | Except.ok org_tree =>
      match resolveRegions reqRegions regionsRes with
      | Except.error e => (env, JobOutcome.failed e)
      | Except.ok regions =>
          match mgmtIdRes with
          | Except.error e => (env, JobOutcome.failed e)
          | Except.ok mgmt_id =>
              let (env1, ou_results) :=
                processOUs skills regions role assume org_tree env []
              match scanManagementLoop regions p mgmt_id env1 skills initMgmtData with
              | Except.error e => (env1, JobOutcome.failed e)
              | Except.ok mgmt_data =>
                  let merged :=
                    insertManagementAccount (setdefaultManagement ou_results)
                      mgmt_id mgmt_data
                  (env1, JobOutcome.completed ⟨merged, summarize merged⟩)

/-- The full background task for an org-scan job: the RUNNING update, the
run body, and the terminal update (`dashboard/server.py:195,304,307`). -/
def orgScanTaskFinal (store : JobStore) (jobId : String)
    (skills : List Skill) (role : String)
    (reqRegions : Option (List String)) (p : Option String)
    (treeRes : Except String OrgTree)
    (regionsRes : Except String (List String))
    (mgmtIdRes : Except String String)
    (assume : String → Except String Creds) (env : Env) (t1 t2 : Nat) : JobStore :=
  let store1 := store.update jobId ⟨some ScanJobStatus.RUNNING, none, none, none, none⟩ t1
  match (orgScanRun skills role reqRegions p treeRes regionsRes mgmtIdRes assume env).2 with
  | JobOutcome.completed org =>
      store1.update jobId ⟨some ScanJobStatus.COMPLETED, none, none, some (some org), none⟩ t2
  | JobOutcome.failed e =>
      store1.update jobId ⟨some ScanJobStatus.FAILED, none, none, none, some (some e)⟩ t2

/-- The submit path of `POST /api/scan/{skill_name}`
(`dashboard/server.py:126-145`): unknown skill → HTTP 400; then region
discovery runs synchronously (outside any `try`: a raise escapes to the
caller and no job is created); then the job is created and the response
carries its id and status value. -/
def scan_skill (registry : Registry) (appProfile : Option String)
    (skillName : String) (reqRegions : Option (List String))
    (reqProfile : Option String)
    (getRegionsFor : Option String → Except String (List String))
    (store : JobStore) (newId : String) (now : Nat) :
    Except String (JobStore × String × String) :=
  match dictGet registry skillName with
  | none => Except.error ("Unknown skill: " ++ skillName)
  | some _ =>
      let p := resolveProfile reqProfile appProfile
      match resolveRegions reqRegions (getRegionsFor p) with
      | Except.error e => Except.error e
      | Except.ok _ =>
          let (store', job) := store.create [skillName] newId now
          Except.ok (store', job.id, job.status.value)

/-- The background task of `scan_skill` (`dashboard/server.py:136-143`):
RUNNING, then COMPLETED with the single result or FAILED with the error. -/
def runScanSkillTask (store : JobStore) (jobId : String)
    (scanOutcome : Except String SkillResult) (t1 t2 : Nat) : JobStore :=
  let store1 := store.update jobId ⟨some ScanJobStatus.RUNNING, none, none, none, none⟩ t1
  match scanOutcome with
  | Except.ok r =>
      store1.update jobId ⟨some ScanJobStatus.COMPLETED, none, some (some [r]), none, none⟩ t2
  | Except.error e =>
      store1.update jobId ⟨some ScanJobStatus.FAILED, none, none, none, some (some e)⟩ t2

/-- The submit path of `POST /api/scan-all` (`dashboard/server.py:147-175`):
same synchronous region discovery before the job is created. -/
def scan_all (registry : Registry) (appProfile : Option String)
    (reqRegions : Option (List String)) (reqProfile : Option String)
    (getRegionsFor : Option String → Except String (List String))
    (store : JobStore) (newId : String) (now : Nat) :
    Except String (JobStore × String × String) :=
  let skills := registry.map (fun kv => kv.2)
  let p := resolveProfile reqProfile appProfile
  match resolveRegions reqRegions (getRegionsFor p) with
  | Except.error e => Except.error e
  | Except.ok _ =>
      let (store', job) := store.create (skills.map (fun s => s.name)) newId now
      Except.ok (store', job.id, job.status.value)

/-- The submit path of `POST /api/org-scan` (`dashboard/server.py:177-192`,
`309-310`): validate the optional skill name, create the job, respond.  No
collaborator call happens before the job is created. -/
def org_scan_submit (registry : Registry) (reqSkill : Option String)
    (store : JobStore) (newId : String) (now : Nat) :
    Except String (JobStore × String × String) :=
  let mkJob : List Skill → Except String (JobStore × String × String) :=
    fun skills_to_run =>
      let (store', job) := store.create (skills_to_run.map (fun s => s.name)) newId now
      Except.ok (store', job.id, job.status.value)
  match reqSkill with
  | some sname =>
      if sname = "" then mkJob (registry.map (fun kv => kv.2))
      else
        match dictGet registry sname with
        | none => Except.error ("Unknown skill: " ++ sname)
        | some s => mkJob [s]
  | none => mkJob (registry.map (fun kv => kv.2))

/-- Position of a status along PENDING → RUNNING → {COMPLETED, FAILED}. -/
def statusRank : ScanJobStatus → Nat
  | ScanJobStatus.PENDING => 0
  | ScanJobStatus.RUNNING => 1
  | ScanJobStatus.COMPLETED => 2
  | ScanJobStatus.FAILED => 2

/-- Whether an `update` call passes a terminal `status` keyword — the
condition under which `JobStore.update` stamps `completed_at`. -/
def UpdateArgs.terminalKw (kw : UpdateArgs) : Bool :=
  kw.status = some ScanJobStatus.COMPLETED || kw.status = some ScanJobStatus.FAILED

/-- A sequence of `(kwargs, now)` update calls never touches `completed_at`
directly. -/
def noCompletedKw (us : List (UpdateArgs × Nat)) : Bool :=
  us.all (fun u => u.1.completed_at = none)

/-- Every `status` keyword in the sequence moves strictly forward from the
status current at that point (the discipline the dashboard endpoints
follow: one RUNNING update, then exactly one terminal update). -/
def forwardOk : ScanJobStatus → List (UpdateArgs × Nat) → Bool
  | _, [] => true
  | st, (kw, _) :: rest =>
      match kw.status with
      | none => forwardOk st rest
      | some s => decide (statusRank st < statusRank s) && forwardOk s rest

/-- The instant of the first update carrying a terminal `status` keyword. -/
def firstTerminalTime : List (UpdateArgs × Nat) → Option Nat
  | [] => none
  | (kw, t) :: rest => if kw.terminalKw then some t else firstTerminalTime rest

/-- Folding a sequence of update calls over a job through `updateJob`. -/
def runUpdates (j : ScanJob) (us : List (UpdateArgs × Nat)) : ScanJob :=
  us.foldl (fun j u => updateJob j u.1 u.2) j

/-- Along the whole update trace, the status rank never decreases. -/
def StatusMonotone (j : ScanJob) (us : List (UpdateArgs × Nat)) : Prop :=
  ∀ n : Nat,
    statusRank (runUpdates j (us.take n)).status ≤
      statusRank (runUpdates j (us.take (n + 1))).status

/-- At every point of the trace, `completed_at` is exactly the instant of
the first terminal update seen so far (so it is `none` before, set once at
the first terminal transition, and never changed after). -/
def CompletedAtTrace (j : ScanJob) (us : List (UpdateArgs × Nat)) : Prop :=
  ∀ n : Nat,
    (runUpdates j (us.take n)).completed_at =
      match firstTerminalTime (us.take n) with
      | some t => some t
      | none => j.completed_at

/-- All account entries of an org-scan result tree, in traversal order. -/
def allAcctEntries : ByOU → List AcctData
  | [] => []
  | ou :: rest => ou.2.map (fun kv => kv.2) ++ allAcctEntries rest

/-- The result tree with every entry keyed by a given account id removed —
what "every other account's entry" denotes. -/
def entriesExcept (aid : String) (b : ByOU) : ByOU :=
  b.map (fun ou => (ou.1, ou.2.filter (fun kv => kv.1 ≠ aid)))

/-- The summary impact of a run's outcome, when it completed. -/
def outcomeSummaryImpact : JobOutcome → Option ℚ
  | JobOutcome.completed org => some org.summary.total_monthly_impact
  | JobOutcome.failed _ => none

/-- The exact (unrounded) sum of the per-account `monthly_impact` entries
of a run's outcome, when it completed. -/
def outcomeEntryImpactSum : JobOutcome → Option ℚ
  | JobOutcome.completed org =>
      some (((allAcctEntries org.by_ou).map (fun a => a.monthly_impact)).sum)
  | JobOutcome.failed _ => none

/-- Every finding title stored anywhere in a run's result tree, in
traversal order. -/
def outcomeFindingTitles : JobOutcome → List String
  | JobOutcome.failed _ => []
  | JobOutcome.completed org =>
      ((allAcctEntries org.by_ou).map
        (fun a => a.skills.map (fun sk => sk.2.findings.map (fun f => f.title)))).flatten.flatten

/-- An initially empty process environment. -/
def envEmpty : Env := fun _ => none

/-- Concrete temporary credentials for test runs. -/
def credsFix : Creds :=
  { AccessKeyId := "AKIAMEMBER", SecretAccessKey := "SECRETKEY",
    SessionToken := "SESSIONTOKEN" }

/-- A finding with a given title and monthly impact and neutral remaining
fields. -/
def mkTitleFinding (t : String) (impact : ℚ) : Finding :=
  { skill := "obs", title := t, severity := Severity.INFO, description := "",
    resource_id := "", account_id := "", region := "", monthly_impact := impact,
    recommended_action := "", action_status := ActionStatus.PENDING,
    auto_remediate := false, metadata := [], timestamp := "" }

/-- A scanner that records, as its single finding's title, the value the
global environment holds for `AWS_ACCESS_KEY_ID` at the moment it runs —
exactly what the default boto3 session of an account-agnostic skill reads. -/
def obsSkill : Skill :=
  { name := "obs",
    scan := fun _ _ _ env =>
      Except.ok
        { skill_name := "obs",
          findings := [mkTitleFinding ((env "AWS_ACCESS_KEY_ID").getD "unset") 0],
          duration_seconds := 0, accounts_scanned := 0, regions_scanned := 0,
          errors := [] } }

/-- A scanner that always succeeds with no findings. -/
def okSkill : Skill :=
  { name := "zombie-hunter",
    scan := fun _ _ _ _ =>
      Except.ok
        { skill_name := "zombie-hunter", findings := [], duration_seconds := 0,
          accounts_scanned := 0, regions_scanned := 0, errors := [] } }

/-- A scanner that always raises. -/
def failSkill : Skill :=
  { name := "broken",
    scan := fun _ _ _ _ => Except.error "boom" }

/-- A scanner whose single finding carries a sub-cent monthly impact. -/
def impactSkill : Skill :=
  { name := "cost-anomaly",
    scan := fun _ _ _ _ =>
      Except.ok
        { skill_name := "cost-anomaly",
          findings := [mkTitleFinding "tiny" ((1 : ℚ) / 1000)],
          duration_seconds := 0, accounts_scanned := 0, regions_scanned := 0,
          errors := [] } }

/-- An org tree with one OU holding one member account. -/
def treeOne : OrgTree :=
  [("Prod", { id := "ou-1", accounts := [{ id := "111", name := "svc-a" }] })]

/-- An org tree with one OU holding two member accounts. -/
def treeTwo : OrgTree :=
  [("Prod",
    { id := "ou-1",
      accounts := [{ id := "111", name := "svc-a" }, { id := "222", name := "svc-b" }] })]

/-- Role assumption that always succeeds with `credsFix`. -/
def assumeOk : String → Except String Creds := fun _ => Except.ok credsFix

/-- Role assumption that is denied for account `222` and succeeds elsewhere. -/
def assumeFail222 : String → Except String Creds :=
  fun aid => if aid = "222" then Except.error "AccessDenied" else Except.ok credsFix

/-- Outcome of an org scan whose only skill is the environment-observing
scanner: one OU, one member account, management id `999`. -/
def c1run : JobOutcome :=
  (orgScanRun [obsSkill] "OrganizationAccountAccessRole" (some ["us-east-1"]) none
    (Except.ok treeOne) (Except.error "unused") (Except.ok "999")
    assumeOk envEmpty).2

/-- Outcome of an org scan whose only skill reports a 0.001-dollar-impact
finding in every scanned account. -/
def c5run : JobOutcome :=
  (orgScanRun [impactSkill] "OrganizationAccountAccessRole" (some ["us-east-1"]) none
    (Except.ok treeOne) (Except.error "unused") (Except.ok "999")
    assumeOk envEmpty).2

/-- A region fan-out scanner that raises for `us-west-2` and returns one
finding elsewhere (the scenario of spec §8). -/
def wfnC2 : String → Except String (List String) :=
  fun r => if r = "us-west-2" then Except.error "boom" else Except.ok ["finding-" ++ r]

/-- The registry used by the submit-path runs. -/
def registryFix : Registry := [("zombie-hunter", okSkill)]

/-- The empty job store. -/
def storeEmpty : JobStore := ⟨[]⟩

/-- The forward-disciplined update sequence the dashboard endpoints issue:
one RUNNING update, then one terminal COMPLETED update. -/
def usForward : List (UpdateArgs × Nat) :=
  [(⟨some ScanJobStatus.RUNNING, none, none, none, none⟩, 1),
   (⟨some ScanJobStatus.COMPLETED, none, some (some []), none, none⟩, 2)]

/-- A fresh PENDING job as `JobStore.create` makes it. -/
def freshJob : ScanJob :=
  { id := "job-1", status := ScanJobStatus.PENDING, skill_names := ["zombie-hunter"],
    created_at := 0, completed_at := none, results := none, org_results := none,
    error := none }

/-- The store holding exactly `freshJob`. -/
def storeWithJob : JobStore := (storeEmpty.create ["zombie-hunter"] "job-1" 0).1

/-- An update sequence the claim quantifies over but no endpoint issues:
mark the job COMPLETED at instant 5, then FAILED at instant 9. -/
def usBackward : List (UpdateArgs × Nat) :=
  [(⟨some ScanJobStatus.COMPLETED, none, some (some []), none, none⟩, 5),
   (⟨some ScanJobStatus.FAILED, none, none, none, some (some "late")⟩, 9)]

/-- The store after replaying `usBackward` against `freshJob`. -/
def storeBackward : JobStore :=
  usBackward.foldl (fun st u => st.update "job-1" u.1 u.2) storeWithJob

/-- The store after only the first (COMPLETED) update of `usBackward`. -/
def storeCompleted : JobStore :=
  (usBackward.take 1).foldl (fun st u => st.update "job-1" u.1 u.2) storeWithJob

/-- The account-isolation property of a pair of org-scan runs differing only
in whether account `aidA`'s role assumption fails: both runs complete, every
entry keyed `aidA` carries the non-empty error note and zero findings, the
trees agree on every other account entry, and the job record ends
COMPLETED. -/
def AccountIsolationProp (skills : List Skill)
    (role : String) (reqRegions : Option (List String)) (p : Option String)
    (tree : OrgTree) (regionsRes : Except String (List String)) (mgmt_id : String)
    (assume assume' : String → Except String Creds) (env : Env) (aidA e : String)
    (store : JobStore) (jobId : String) (t1 t2 : Nat) : Prop :=
  ∃ org org' : OrgResult,
    (orgScanRun skills role reqRegions p (Except.ok tree) regionsRes
        (Except.ok mgmt_id) assume env).2 = JobOutcome.completed org ∧
      (orgScanRun skills role reqRegions p (Except.ok tree) regionsRes
          (Except.ok mgmt_id) assume' env).2 = JobOutcome.completed org' ∧
      (∀ ouEntry ∈ org.by_ou, ∀ kv ∈ ouEntry.2, kv.1 = aidA →
        kv.2.findings_count = 0 ∧ kv.2.critical_count = 0 ∧
          kv.2.monthly_impact = 0 ∧ kv.2.skills = [] ∧
          kv.2.error = some (assumeFailMsg role aidA e) ∧
          assumeFailMsg role aidA e ≠ "") ∧
      entriesExcept aidA org.by_ou = entriesExcept aidA org'.by_ou ∧
      ((orgScanTaskFinal store jobId skills role reqRegions p (Except.ok tree)
            regionsRes (Except.ok mgmt_id) assume env t1 t2).get jobId).map
          (fun j => j.status) = some ScanJobStatus.COMPLETED

/-- The management-failure property of an org-scan run whose management
scan raises: the whole run fails with that error and the job record ends
FAILED carrying it — for EVERY role-assumption behaviour `assume`, i.e.
regardless of what happened in the member accounts. -/
def ManagementFailureProp (pre post : List Skill) (sbad : Skill) (role : String)
    (reqRegions : Option (List String)) (p : Option String) (tree : OrgTree)
    (regionsRes : Except String (List String)) (mgmt_id : String)
    (assume : String → Except String Creds) (env : Env) (e : String)
    (store : JobStore) (jobId : String) (t1 t2 : Nat) : Prop :=
  (orgScanRun (pre ++ sbad :: post) role reqRegions p (Except.ok tree) regionsRes
      (Except.ok mgmt_id) assume env).2 = JobOutcome.failed e ∧
    ((orgScanTaskFinal store jobId (pre ++ sbad :: post) role reqRegions p
          (Except.ok tree) regionsRes (Except.ok mgmt_id) assume env t1 t2).get
        jobId).map (fun j => j.status) = some ScanJobStatus.FAILED ∧
    ((orgScanTaskFinal store jobId (pre ++ sbad :: post) role reqRegions p
          (Except.ok tree) regionsRes (Except.ok mgmt_id) assume env t1 t2).get
        jobId).map (fun j => j.error) = some (some e)

/-- The submit-does-not-raise property of the three job-submission
endpoints: each returns the fresh job id with status string `"pending"`,
the created job is PENDING, and the `scan_skill` background task always
drives the job to a terminal status, recording the scan error when the
scan raised. -/
def SubmitNoRaiseProp (registry : Registry) (appProfile : Option String)
    (skillName : String) (reqRegions : Option (List String))
    (reqProfile : Option String)
    (getRegionsFor : Option String → Except String (List String))
    (store : JobStore) (newId : String) (now : Nat)
    (reqSkill : Option String) : Prop :=
  (∃ store₁,
      scan_skill registry appProfile skillName reqRegions reqProfile getRegionsFor
          store newId now = Except.ok (store₁, newId, "pending") ∧
        (store₁.get newId).map (fun j => j.status) = some ScanJobStatus.PENDING ∧
        ∀ (outcome : Except String SkillResult) (t1 t2 : Nat),
          ((runScanSkillTask store₁ newId outcome t1 t2).get newId).map
              (fun j => j.status) =
            some (match outcome with
              | Except.ok _ => ScanJobStatus.COMPLETED
              | Except.error _ => ScanJobStatus.FAILED) ∧
          ∀ e', outcome = Except.error e' →
            ((runScanSkillTask store₁ newId outcome t1 t2).get newId).map
                (fun j => j.error) = some (some e')) ∧
    (∃ store₂,
      scan_all registry appProfile reqRegions reqProfile getRegionsFor store newId
        now = Except.ok (store₂, newId, "pending")) ∧
    (∃ store₃,
      org_scan_submit registry reqSkill store newId now =
        Except.ok (store₃, newId, "pending"))

/-- The result tree an org scan over the empty org tree with no skills
produces: only the management account's (empty) entry. -/
def c5EmptyMerged : ByOU :=
  insertManagementAccount
    (setdefaultManagement
      (processOUs [] ["us-east-1"] "OrganizationAccountAccessRole" assumeOk []
        envEmpty []).2)
    "999" initMgmtData

theorem foldl_collect {α : Type} (fn : String → Except String (List α))
    (l : List String) :
    ∀ acc : List α,
      l.foldl
        (fun results r =>
          match fn r with
          | Except.ok items => results ++ items
          | Except.error _ => results)
        acc = acc ++ unionOfSuccesses fn l := by
  induction l with
  | nil => intro acc; simp [unionOfSuccesses]
  | cons r rs ih =>
      intro acc
      cases h : fn r <;>
        simp [h, unionOfSuccesses, successFindings, ih, List.append_assoc]

/-- C2 (amended): for every NON-EMPTY region list, `parallel_regions`
returns, without raising, exactly the union of the findings of the regions
where the scanner succeeded; regions whose scanner raised contribute
nothing.  (On the empty list the worker-pool constructor raises — C9.) -/
theorem parallel_regions_union {α : Type} (fn : String → Except String (List α))
    (regions : List String) (h : regions ≠ []) :
    parallel_regions fn regions 10 = Except.ok (unionOfSuccesses fn regions) := by
  have hl : 0 < regions.length := List.length_pos.mpr h
  unfold parallel_regions
  rw [if_neg (by omega)]
  rw [foldl_collect]
  simp

/-- Witness for `parallel_regions_union`: the spec §8 scenario — two
regions, the scanner raises only for `us-west-2`, the fan-out returns only
`us-east-1`'s finding. -/
theorem parallel_regions_union_witness :
    (["us-east-1", "us-west-2"] : List String) ≠ [] ∧
      parallel_regions wfnC2 ["us-east-1", "us-west-2"] 10 =
        Except.ok (unionOfSuccesses wfnC2 ["us-east-1", "us-west-2"]) ∧
      unionOfSuccesses wfnC2 ["us-east-1", "us-west-2"] = ["finding-us-east-1"] :=
  ⟨by decide, parallel_regions_union wfnC2 ["us-east-1", "us-west-2"] (by decide), rfl⟩

/-- C2 (counterexample): on the empty region list the claim fails — the
call raises (`ThreadPoolExecutor` rejects `max_workers = 0`) instead of
returning the empty union without exception. -/
theorem parallel_regions_empty_cx :
    parallel_regions (fun _ => Except.ok ([] : List String)) [] 10 =
      Except.error "max_workers must be greater than 0" := rfl

/-- C9: for every scanner, `parallel_regions` on the empty region list
raises (`min(len(regions), max_workers) = 0` is rejected by the
`ThreadPoolExecutor` constructor) instead of returning an empty finding
list. -/
theorem parallel_regions_empty_raises :
    ∀ (α : Type) (fn : String → Except String (List α)),
      parallel_regions fn [] 10 = Except.error "max_workers must be greater than 0" :=
  fun _ _ => rfl

theorem foldl_add_impact (l : List Finding) :
    ∀ acc : ℚ,
      l.foldl (fun a f => a + f.monthly_impact) acc =
        acc + (l.map (fun f => f.monthly_impact)).sum := by
  induction l with
  | nil => intro acc; simp
  | cons f fs ih => intro acc; simp [ih, add_assoc]

theorem foldl_count_critical (l : List Finding) :
    ∀ acc : Nat,
      l.foldl (fun a f => if f.severity = Severity.CRITICAL then a + 1 else a) acc =
        acc + (l.filter (fun f => f.severity == Severity.CRITICAL)).length := by
  induction l with
  | nil => intro acc; simp
  | cons f fs ih =>
      intro acc
      by_cases h : f.severity = Severity.CRITICAL <;>
        simp [h, ih, List.filter_cons, Nat.add_assoc, Nat.add_comm 1]

/-- C7: for every `SkillResult` (any finding list, the empty one included),
`total_impact` is the sum of the findings' `monthly_impact` and
`critical_count` is the number of findings with CRITICAL severity. -/
theorem skillresult_derived_totals (r : SkillResult) :
    r.total_impact = (r.findings.map (fun f => f.monthly_impact)).sum ∧
      r.critical_count =
        (r.findings.filter (fun f => f.severity == Severity.CRITICAL)).length := by
  constructor
  · simpa using foldl_add_impact r.findings 0
  · simpa using foldl_count_critical r.findings 0

/-- C8: the orchestrator's stamping of a scanned finding sets `account_id`
to the scanned account and leaves every other field exactly as the scanner
returned it. -/
theorem stampFinding_frame (aid : String) (f : Finding) :
    (stampFinding aid f).account_id = aid ∧
      (stampFinding aid f).skill = f.skill ∧
      (stampFinding aid f).title = f.title ∧
      (stampFinding aid f).severity = f.severity ∧
      (stampFinding aid f).description = f.description ∧
      (stampFinding aid f).resource_id = f.resource_id ∧
      (stampFinding aid f).region = f.region ∧
      (stampFinding aid f).monthly_impact = f.monthly_impact ∧
      (stampFinding aid f).recommended_action = f.recommended_action ∧
      (stampFinding aid f).action_status = f.action_status ∧
      (stampFinding aid f).auto_remediate = f.auto_remediate ∧
      (stampFinding aid f).metadata = f.metadata ∧
      (stampFinding aid f).timestamp = f.timestamp :=
  ⟨rfl, rfl, rfl, rfl, rfl, rfl, rfl, rfl, rfl, rfl, rfl, rfl, rfl⟩

/-- C1 (code behaviour at a failing input): in an org scan of one member
account whose role assumption yields `credsFix`, a scanner that reports the
global environment's `AWS_ACCESS_KEY_ID` at the moment it runs sees the
member account's issued access key — the broker's credentials ARE written
into process-wide mutable state while member scanners run (and are restored
before the management scan, which sees the variable unset). -/
theorem org_scan_env_exposes_member_credentials :
    outcomeFindingTitles c1run = [credsFix.AccessKeyId, "unset"] := by decide

theorem forwardOk_cons (st : ScanJobStatus) (kw : UpdateArgs) (t : Nat)
    (rest : List (UpdateArgs × Nat)) :
    forwardOk st ((kw, t) :: rest) =
      match kw.status with
      | none => forwardOk st rest
      | some s => decide (statusRank st < statusRank s) && forwardOk s rest := rfl

theorem firstTerminalTime_cons (kw : UpdateArgs) (t : Nat)
    (rest : List (UpdateArgs × Nat)) :
    firstTerminalTime ((kw, t) :: rest) =
      if kw.terminalKw then some t else firstTerminalTime rest := rfl

theorem runUpdates_cons (j : ScanJob) (kw : UpdateArgs) (t : Nat)
    (rest : List (UpdateArgs × Nat)) :
    runUpdates j ((kw, t) :: rest) = runUpdates (updateJob j kw t) rest := rfl

theorem terminalKw_iff (kw : UpdateArgs) :
    kw.terminalKw = true ↔
      (kw.status = some ScanJobStatus.COMPLETED ∨ kw.status = some ScanJobStatus.FAILED) := by
  simp [UpdateArgs.terminalKw]

theorem updateJob_status (j : ScanJob) (kw : UpdateArgs) (t : Nat) :
    (updateJob j kw t).status = kw.status.getD j.status := by
  unfold updateJob
  split <;> rfl

theorem updateJob_completed_term (j : ScanJob) (kw : UpdateArgs) (t : Nat)
    (h : kw.terminalKw = true) : (updateJob j kw t).completed_at = some t := by
  unfold updateJob
  rw [if_pos ((terminalKw_iff kw).mp h)]

theorem updateJob_completed_nonterm (j : ScanJob) (kw : UpdateArgs) (t : Nat)
    (hc : kw.completed_at = none) (h : kw.terminalKw = false) :
    (updateJob j kw t).completed_at = j.completed_at := by
  unfold updateJob
  rw [if_neg]
  · simp [hc]
  · intro hcontra
    have hcontra2 := (terminalKw_iff kw).mpr hcontra
    rw [h] at hcontra2
    simp at hcontra2

theorem statusRank_le_two (s : ScanJobStatus) : statusRank s ≤ 2 := by
  cases s <;> simp [statusRank]

theorem fwd_terminal_none (us : List (UpdateArgs × Nat)) :
    ∀ st : ScanJobStatus, statusRank st = 2 → forwardOk st us = true →
      firstTerminalTime us = none := by
  induction us with
  | nil => intro st _ _; rfl
  | cons u rest ih =>
      obtain ⟨kw, t⟩ := u
      intro st h2 hf
      rw [forwardOk_cons] at hf
      rcases hs : kw.status with _ | s
      · rw [hs] at hf
        rw [firstTerminalTime_cons]
        have hterm : kw.terminalKw = false := by
          simp [UpdateArgs.terminalKw, hs]
        rw [hterm]
        simpa using ih st h2 hf
      · rw [hs] at hf
        simp only [Bool.and_eq_true, decide_eq_true_eq] at hf
        have := statusRank_le_two s
        omega

theorem forwardOk_tail (j : ScanJob) (kw : UpdateArgs) (t : Nat)
    (rest : List (UpdateArgs × Nat))
    (hf : forwardOk j.status ((kw, t) :: rest) = true) :
    forwardOk (updateJob j kw t).status rest = true := by
  rw [forwardOk_cons] at hf
  rw [updateJob_status]
  rcases hs : kw.status with _ | s
  · rw [hs] at hf; simpa using hf
  · rw [hs] at hf
    simp only [Bool.and_eq_true, decide_eq_true_eq] at hf
    simpa using hf.2

theorem runUpdates_completed_at (us : List (UpdateArgs × Nat)) :
    ∀ j : ScanJob, noCompletedKw us = true → forwardOk j.status us = true →
      (runUpdates j us).completed_at =
        match firstTerminalTime us with
        | some t => some t
        | none => j.completed_at := by
  induction us with
  | nil => intro j _ _; rfl
  | cons u rest ih =>
      obtain ⟨kw, t⟩ := u
      intro j hnc hf
      have hkwc : kw.completed_at = none := by
        simp only [noCompletedKw, List.all_cons, Bool.and_eq_true,
          decide_eq_true_eq] at hnc
        exact hnc.1
      have hncr : noCompletedKw rest = true := by
        simp only [noCompletedKw, List.all_cons, Bool.and_eq_true] at hnc
        exact hnc.2
      have hftail := forwardOk_tail j kw t rest hf
      rw [runUpdates_cons, firstTerminalTime_cons]
      cases hterm : kw.terminalKw with
      | true =>
          have hs2 : statusRank (updateJob j kw t).status = 2 := by
            rcases (terminalKw_iff kw).mp hterm with h1 | h1 <;>
              rw [updateJob_status, h1] <;> rfl
          have hnone := fwd_terminal_none rest _ hs2 hftail
          rw [ih (updateJob j kw t) hncr hftail, hnone,
            updateJob_completed_term j kw t hterm]
          simp
      | false =>
          rw [ih (updateJob j kw t) hncr hftail,
            updateJob_completed_nonterm j kw t hkwc hterm]
          simp

theorem runUpdates_status_monotone (us : List (UpdateArgs × Nat)) :
    ∀ (j : ScanJob) (n : Nat), forwardOk j.status us = true →
      statusRank (runUpdates j (us.take n)).status ≤
        statusRank (runUpdates j (us.take (n + 1))).status := by
  induction us with
  | nil => intro j n _; simp [runUpdates]
  | cons u rest ih =>
      obtain ⟨kw, t⟩ := u
      intro j n hf
      cases n with
      | zero =>
          simp only [List.take_zero, List.take_succ_cons, List.take_zero]
          show statusRank (runUpdates j []).status ≤
            statusRank (runUpdates j [(kw, t)]).status
          simp only [runUpdates, List.foldl_nil, List.foldl_cons]
          rw [updateJob_status]
          rcases hs : kw.status with _ | s
          · simp
          · rw [forwardOk_cons, hs] at hf
            simp only [Bool.and_eq_true, decide_eq_true_eq] at hf
            simpa using Nat.le_of_lt hf.1
      | succ m =>
          rw [List.take_succ_cons, List.take_succ_cons, runUpdates_cons,
            runUpdates_cons]
          exact ih (updateJob j kw t) m (forwardOk_tail j kw t rest hf)

theorem noCompletedKw_take (us : List (UpdateArgs × Nat)) :
    ∀ n : Nat, noCompletedKw us = true → noCompletedKw (us.take n) = true := by
  induction us with
  | nil => intro n _; simp [noCompletedKw]
  | cons u rest ih =>
      intro n h
      cases n with
      | zero => rfl
      | succ m =>
          simp only [noCompletedKw, List.all_cons, Bool.and_eq_true] at h
          rw [List.take_succ_cons]
          simp only [noCompletedKw, List.all_cons, Bool.and_eq_true]
          exact ⟨h.1, ih m h.2⟩

theorem forwardOk_take (us : List (UpdateArgs × Nat)) :
    ∀ (st : ScanJobStatus) (n : Nat), forwardOk st us = true →
      forwardOk st (us.take n) = true := by
  induction us with
  | nil => intro st n _; simp [forwardOk]
  | cons u rest ih =>
      obtain ⟨kw, t⟩ := u
      intro st n h
      cases n with
      | zero => rfl
      | succ m =>
          rw [List.take_succ_cons, forwardOk_cons]
          rw [forwardOk_cons] at h
          rcases hs : kw.status with _ | s
          · rw [hs] at h
            exact ih st m h
          · rw [hs] at h
            simp only [Bool.and_eq_true, decide_eq_true_eq] at h
            simp only [Bool.and_eq_true, decide_eq_true_eq]
            exact ⟨h.1, ih s m h.2⟩

/-- C3 (amended): `JobStore.update` itself enforces no guard, but for every
update sequence that never passes `completed_at` directly and whose status
keywords move strictly forward from the current status — the discipline the
dashboard's background tasks follow (one RUNNING update, then exactly one
terminal update) — the job's status rank never decreases along the trace,
and at every point `completed_at` equals the instant of the first terminal
update seen so far: `None` before it, stamped exactly once by it, and never
changed or cleared afterwards. -/
theorem jobstore_forward_discipline (j : ScanJob) (us : List (UpdateArgs × Nat))
    (hnc : noCompletedKw us = true) (hf : forwardOk j.status us = true) :
    StatusMonotone j us ∧ CompletedAtTrace j us := by
  constructor
  · intro n
    exact runUpdates_status_monotone us j n hf
  · intro n
    exact runUpdates_completed_at (us.take n) j (noCompletedKw_take us n hnc)
      (forwardOk_take us j.status n hf)

/-- Witness for `jobstore_forward_discipline`: the exact sequence the
dashboard endpoints issue — RUNNING at instant 1, COMPLETED with results at
instant 2 — against a fresh PENDING job. -/
theorem jobstore_forward_discipline_witness :
    noCompletedKw usForward = true ∧ forwardOk freshJob.status usForward = true ∧
      (StatusMonotone freshJob usForward ∧ CompletedAtTrace freshJob usForward) :=
  ⟨by decide, by decide,
    jobstore_forward_discipline freshJob usForward (by decide) (by decide)⟩

/-- C3 (counterexample): the claim quantifies over EVERY sequence of
create/update operations, but `JobStore.update` applies whatever status it
is given: after `create`, an update to COMPLETED at instant 5 followed by
an update to FAILED at instant 9 moves the job from one terminal status to
a different one and rewrites `completed_at` from 5 to 9. -/
theorem jobstore_backward_cx :
    (storeCompleted.get "job-1").map (fun j => j.status) = some ScanJobStatus.COMPLETED ∧
      (storeCompleted.get "job-1").map (fun j => j.completed_at) = some (some 5) ∧
      (storeBackward.get "job-1").map (fun j => j.status) = some ScanJobStatus.FAILED ∧
      (storeBackward.get "job-1").map (fun j => j.completed_at) = some (some 9) :=
  ⟨by decide, by decide, by decide, by decide⟩

theorem dictGet_dictInsert_self {α : Type} (l : List (String × α)) (k : String)
    (v : α) : dictGet (dictInsert l k v) k = some v := by
  induction l with
  | nil => simp [dictInsert, dictGet]
  | cons kv rest ih =>
      obtain ⟨k', v'⟩ := kv
      by_cases h : k' = k <;> simp [dictInsert, dictGet, h, ih]

theorem jobstore_get_update_self (st : JobStore) (id : String) (kw : UpdateArgs)
    (t : Nat) (j : ScanJob) (h : st.get id = some j) :
    (st.update id kw t).get id = some (updateJob j kw t) := by
  unfold JobStore.get at h
  unfold JobStore.update
  rw [h]
  simp [JobStore.get, dictGet_dictInsert_self]

theorem restore_set_roundtrip (e : Env) (c : Creds) :
    restoreEnv (setCredsEnv e c) (saveOldEnv e) = e := by
  funext x
  simp only [restoreEnv, saveOldEnv, credEnvKeys, List.map_cons, List.map_nil,
    List.foldl_cons, List.foldl_nil, Env.restoreKey, setCredsEnv, Env.set]
  by_cases h1 : x = "AWS_ACCESS_KEY_ID" <;>
    by_cases h2 : x = "AWS_SECRET_ACCESS_KEY" <;>
      by_cases h3 : x = "AWS_SESSION_TOKEN" <;>
        simp [h1, h2, h3]

theorem runSkillsLoop_env (regions : List String) (aid : String) (creds : Creds)
    (skills : List Skill) :
    ∀ (env : Env) (acc : AcctData),
      (runSkillsLoop regions aid creds skills env acc).1 = env := by
  induction skills with
  | nil => intro env acc; rfl
  | cons s rest ih =>
      intro env acc
      cases h : s.scan regions none (some aid) (setCredsEnv env creds) with
      | error e => simp [runSkillsLoop, h, restore_set_roundtrip]
      | ok result => simp [runSkillsLoop, h, restore_set_roundtrip, ih]

theorem processAccount_env (skills : List Skill) (regions : List String)
    (role : String) (assume : String → Except String Creds) (env : Env)
    (a : AccountRef) :
    (processAccount skills regions role assume env a).1 = env := by
  unfold processAccount
  cases h : assume a.id with
  | error e => rfl
  | ok creds =>
      have henv := runSkillsLoop_env regions a.id creds skills env (initAcctData a.name)
      rcases hr : runSkillsLoop regions a.id creds skills env (initAcctData a.name) with
        ⟨env', out⟩
      rw [hr] at henv
      simp only at henv
      cases out <;> simp [hr, henv]

theorem processAccounts_env (skills : List Skill) (regions : List String)
    (role : String) (assume : String → Except String Creds)
    (accounts : List AccountRef) :
    ∀ (env : Env) (acc : List (String × AcctData)),
      (processAccounts skills regions role assume accounts env acc).1 = env := by
  induction accounts with
  | nil => intro env acc; rfl
  | cons a rest ih =>
      intro env acc
      have hpa := processAccount_env skills regions role assume env a
      rcases hp : processAccount skills regions role assume env a with ⟨env', d⟩
      rw [hp] at hpa
      simp only at hpa
      subst hpa
      simp [processAccounts, hp, ih]

theorem processOUs_env (skills : List Skill) (regions : List String)
    (role : String) (assume : String → Except String Creds) (tree : OrgTree) :
    ∀ (env : Env) (acc : ByOU),
      (processOUs skills regions role assume tree env acc).1 = env := by
  induction tree with
  | nil => intro env acc; rfl
  | cons ou rest ih =>
      obtain ⟨ou_name, ou_info⟩ := ou
      intro env acc
      have hpa := processAccounts_env skills regions role assume ou_info.accounts env []
      rcases hp : processAccounts skills regions role assume ou_info.accounts env [] with
        ⟨env', d⟩
      rw [hp] at hpa
      simp only at hpa
      subst hpa
      simp [processOUs, hp, ih]

theorem scanManagementLoop_ok (regions : List String) (p : Option String)
    (mgmt_id : String) (env : Env) (skills : List Skill) :
    ∀ acc : AcctData,
      (∀ s ∈ skills, ∃ r, s.scan regions p (some mgmt_id) env = Except.ok r) →
      ∃ d, scanManagementLoop regions p mgmt_id env skills acc = Except.ok d := by
  induction skills with
  | nil => intro acc _; exact ⟨acc, rfl⟩
  | cons s rest ih =>
      intro acc h
      obtain ⟨r, hr⟩ := h s (by simp)
      have := ih (addSkillResult acc s.name
        { r with findings := r.findings.map (stampFinding mgmt_id) })
        (fun s' hs' => h s' (by simp [hs']))
      simpa [scanManagementLoop, hr] using this

theorem scanManagementLoop_fails (regions : List String) (p : Option String)
    (mgmt_id : String) (env : Env) (sbad : Skill) (post : List Skill) (e : String)
    (hbad : sbad.scan regions p (some mgmt_id) env = Except.error e) :
    ∀ (pre : List Skill) (acc : AcctData),
      (∀ s ∈ pre, ∃ r, s.scan regions p (some mgmt_id) env = Except.ok r) →
      scanManagementLoop regions p mgmt_id env (pre ++ sbad :: post) acc =
        Except.error e := by
  intro pre
  induction pre with
  | nil => intro acc _; simp [scanManagementLoop, hbad]
  | cons s rest ih =>
      intro acc hpre
      obtain ⟨r, hr⟩ := hpre s (by simp)
      have := ih (addSkillResult acc s.name
        { r with findings := r.findings.map (stampFinding mgmt_id) })
        (fun s' hs' => hpre s' (by simp [hs']))
      simpa [scanManagementLoop, hr] using this

theorem accounts_foldl_totals (l : List (String × AcctData)) :
    ∀ t : Nat × ℚ × Nat,
      l.foldl
        (fun t acct =>
          (t.1 + acct.2.findings_count, t.2.1 + acct.2.monthly_impact,
           t.2.2 + acct.2.critical_count))
        t =
        (t.1 + ((l.map (fun kv => kv.2)).map (fun a => a.findings_count)).sum,
         t.2.1 + ((l.map (fun kv => kv.2)).map (fun a => a.monthly_impact)).sum,
         t.2.2 + ((l.map (fun kv => kv.2)).map (fun a => a.critical_count)).sum) := by
  induction l with
  | nil => intro t; simp
  | cons kv rest ih =>
      intro t
      simp [ih, add_assoc]

theorem summarize_foldl (b : ByOU) :
    ∀ t : Nat × ℚ × Nat,
      b.foldl
        (fun t ou =>
          ou.2.foldl
            (fun t acct =>
              (t.1 + acct.2.findings_count, t.2.1 + acct.2.monthly_impact,
               t.2.2 + acct.2.critical_count))
            t)
        t =
        (t.1 + ((allAcctEntries b).map (fun a => a.findings_count)).sum,
         t.2.1 + ((allAcctEntries b).map (fun a => a.monthly_impact)).sum,
         t.2.2 + ((allAcctEntries b).map (fun a => a.critical_count)).sum) := by
  induction b with
  | nil => intro t; simp [allAcctEntries]
  | cons ou rest ih =>
      intro t
      rw [List.foldl_cons, accounts_foldl_totals, ih]
      simp [allAcctEntries, List.sum_append, add_assoc, Function.comp]

theorem summarize_flat (b : ByOU) :
    (summarize b).total_findings =
        ((allAcctEntries b).map (fun a => a.findings_count)).sum ∧
      (summarize b).total_critical =
        ((allAcctEntries b).map (fun a => a.critical_count)).sum ∧
      (summarize b).total_monthly_impact =
        round2 (((allAcctEntries b).map (fun a => a.monthly_impact)).sum) := by
  unfold summarize
  rw [summarize_foldl]
  simp

theorem mem_dictInsert {α : Type} (l : List (String × α)) (k0 : String) (v : α) :
    ∀ entry : String × α, entry ∈ dictInsert l k0 v → entry ∈ l ∨ entry = (k0, v) := by
  induction l with
  | nil => intro entry h; simp [dictInsert] at h; right; exact h
  | cons kv rest ih =>
      obtain ⟨k', v'⟩ := kv
      intro entry h
      by_cases hk : k' = k0
      · rw [dictInsert, if_pos hk] at h
        rcases List.mem_cons.mp h with h1 | h1
        · right; exact h1
        · left; exact List.mem_cons_of_mem _ h1
      · rw [dictInsert, if_neg hk] at h
        rcases List.mem_cons.mp h with h1 | h1
        · left; exact h1 ▸ List.mem_cons_self _ _
        · rcases ih entry h1 with h2 | h2
          · left; exact List.mem_cons_of_mem _ h2
          · right; exact h2

theorem filter_dictInsert_true {α : Type} (P : String → Bool) (k : String)
    (v : α) (hk : P k = true) :
    ∀ l : List (String × α),
      (dictInsert l k v).filter (fun kv => P kv.1) =
        dictInsert (l.filter (fun kv => P kv.1)) k v := by
  intro l
  induction l with
  | nil => simp [dictInsert, List.filter, hk]
  | cons kv rest ih =>
      obtain ⟨k', v'⟩ := kv
      by_cases h : k' = k
      · subst h
        simp [dictInsert, List.filter_cons, hk]
      · rw [dictInsert, if_neg h]
        by_cases hp : P k' = true
        · simp only [List.filter_cons, hp, if_true]
          rw [dictInsert, if_neg h, ih]
        · simp only [List.filter_cons, hp]
          simp only [Bool.false_eq_true, if_false]
          exact ih

theorem filter_dictInsert_false {α : Type} (P : String → Bool) (k : String)
    (v : α) (hk : P k = false) :
    ∀ l : List (String × α),
      (dictInsert l k v).filter (fun kv => P kv.1) =
        l.filter (fun kv => P kv.1) := by
  intro l
  induction l with
  | nil => simp [dictInsert, List.filter, hk]
  | cons kv rest ih =>
      obtain ⟨k', v'⟩ := kv
      by_cases h : k' = k
      · subst h
        simp [dictInsert, List.filter_cons, hk]
      · rw [dictInsert, if_neg h]
        simp only [List.filter_cons]
        rw [ih]

theorem map_snd_dictInsert {α β : Type} (g : α → β) (k : String) (v : α) :
    ∀ l : List (String × α),
      (dictInsert l k v).map (fun kv => (kv.1, g kv.2)) =
        dictInsert (l.map (fun kv => (kv.1, g kv.2))) k (g v) := by
  intro l
  induction l with
  | nil => simp [dictInsert]
  | cons kv rest ih =>
      obtain ⟨k', v'⟩ := kv
      by_cases h : k' = k
      · subst h; simp [dictInsert]
      · simp [dictInsert, h, ih]

theorem processAccount_congr (skills : List Skill) (regions : List String)
    (role : String) (assume assume' : String → Except String Creds) (env : Env)
    (a : AccountRef) (h : assume' a.id = assume a.id) :
    processAccount skills regions role assume' env a =
      processAccount skills regions role assume env a := by
  unfold processAccount
  rw [h]

theorem processAccount_error_shape (skills : List Skill) (regions : List String)
    (role : String) (assume : String → Except String Creds) (env : Env)
    (a : AccountRef) (e : String) (h : assume a.id = Except.error e) :
    (processAccount skills regions role assume env a).2 =
      { name := a.name, findings_count := 0, critical_count := 0,
        monthly_impact := 0, skills := [],
        error := some (assumeFailMsg role a.id e) } := by
  unfold processAccount
  rw [h]
  rfl

theorem processAccounts_mem (skills : List Skill) (regions : List String)
    (role : String) (assume : String → Except String Creds)
    (accounts : List AccountRef) :
    ∀ (env : Env) (acc : List (String × AcctData)) (entry : String × AcctData),
      entry ∈ (processAccounts skills regions role assume accounts env acc).2 →
      entry ∈ acc ∨
        ∃ a ∈ accounts, a.id = entry.1 ∧
          ∃ env' : Env,
            entry.2 = (processAccount skills regions role assume env' a).2 := by
  induction accounts with
  | nil => intro env acc entry h; left; exact h
  | cons a rest ih =>
      intro env acc entry h
      rcases hp : processAccount skills regions role assume env a with ⟨env', d⟩
      rw [processAccounts, hp] at h
      rcases ih env' (dictInsert acc a.id d) entry h with h1 | h1
      · rcases mem_dictInsert acc a.id d entry h1 with h2 | h2
        · left; exact h2
        · right
          refine ⟨a, by simp, ?_, env, ?_⟩
          · rw [h2]
          · rw [h2]; simp [hp]
      · obtain ⟨a', ha', hid, env'', hd⟩ := h1
        right
        exact ⟨a', by simp [ha'], hid, env'', hd⟩

theorem processAccounts_filter_congr (skills : List Skill) (regions : List String)
    (role : String) (assume assume' : String → Except String Creds)
    (aidA : String) (e : String) (hA : assume aidA = Except.error e)
    (hagree : ∀ x, x ≠ aidA → assume' x = assume x)
    (accounts : List AccountRef) :
    ∀ (env : Env) (acc acc' : List (String × AcctData)),
      acc.filter (fun kv => kv.1 ≠ aidA) = acc'.filter (fun kv => kv.1 ≠ aidA) →
      ((processAccounts skills regions role assume accounts env acc).2).filter
          (fun kv => kv.1 ≠ aidA) =
        ((processAccounts skills regions role assume' accounts env acc').2).filter
          (fun kv => kv.1 ≠ aidA) := by
  induction accounts with
  | nil => intro env acc acc' hacc; exact hacc
  | cons a rest ih =>
      intro env acc acc' hacc
      rcases hp : processAccount skills regions role assume env a with ⟨env1, d⟩
      rcases hp' : processAccount skills regions role assume' env a with ⟨env1', d'⟩
      have henv : env1 = env := by
        have h0 := processAccount_env skills regions role assume env a
        rw [hp] at h0
        simpa using h0
      have henv' : env1' = env := by
        have h0 := processAccount_env skills regions role assume' env a
        rw [hp'] at h0
        simpa using h0
      rw [henv] at hp
      rw [henv'] at hp'
      rw [processAccounts, hp, processAccounts, hp']
      by_cases hid : a.id = aidA
      · apply ih env
        subst hid
        rw [show (fun kv : String × AcctData => decide ¬kv.1 = a.id) =
              (fun kv : String × AcctData => (fun s => decide ¬s = a.id) kv.1) from rfl]
        rw [filter_dictInsert_false (fun s => decide ¬s = a.id) a.id d (by simp),
          filter_dictInsert_false (fun s => decide ¬s = a.id) a.id d' (by simp)]
        exact hacc
      · have hd : d' = d := by
          have hcongr := processAccount_congr skills regions role assume assume' env a
            (hagree a.id hid)
          rw [hp, hp'] at hcongr
          simpa using hcongr
        rw [hd]
        apply ih env
        rw [show (fun kv : String × AcctData => decide ¬kv.1 = aidA) =
              (fun kv : String × AcctData => (fun s => decide ¬s = aidA) kv.1) from rfl]
        rw [filter_dictInsert_true (fun s => decide ¬s = aidA) a.id d (by simp [hid]),
          filter_dictInsert_true (fun s => decide ¬s = aidA) a.id d (by simp [hid])]
        rw [show (fun kv : String × AcctData => (fun s => decide ¬s = aidA) kv.1) =
              (fun kv : String × AcctData => decide ¬kv.1 = aidA) from rfl]
        rw [hacc]

theorem entriesExcept_keys (aid : String) (b : ByOU) :
    (entriesExcept aid b).map Prod.fst = b.map Prod.fst := by
  induction b with
  | nil => rfl
  | cons ou rest ih => simp [entriesExcept, ih]

theorem entriesExcept_append (aid : String) (b1 b2 : ByOU) :
    entriesExcept aid (b1 ++ b2) = entriesExcept aid b1 ++ entriesExcept aid b2 := by
  simp [entriesExcept]

theorem entriesExcept_dictInsert (aid : String) (k : String)
    (v : List (String × AcctData)) :
    ∀ b : ByOU,
      entriesExcept aid (dictInsert b k v) =
        dictInsert (entriesExcept aid b) k (v.filter (fun kv => kv.1 ≠ aid)) := by
  intro b
  induction b with
  | nil => simp [entriesExcept, dictInsert]
  | cons ou rest ih =>
      obtain ⟨n, accs⟩ := ou
      by_cases h : n = k
      · subst h; simp [dictInsert, entriesExcept]
      · simp only [entriesExcept] at ih ⊢
        simp only [dictInsert, h, if_false, List.map_cons]
        rw [ih]

theorem any_fst_congr {α β : Type} (p : String → Bool) :
    ∀ (b : List (String × α)) (b' : List (String × β)),
      b.map Prod.fst = b'.map Prod.fst →
      b.any (fun kv => p kv.1) = b'.any (fun kv => p kv.1) := by
  intro b
  induction b with
  | nil =>
      intro b' h
      cases b' with
      | nil => rfl
      | cons x xs => simp at h
  | cons kv rest ih =>
      intro b' h
      cases b' with
      | nil => simp at h
      | cons kv' rest' =>
          simp only [List.map_cons, List.cons.injEq] at h
          simp [List.any_cons, h.1, ih rest' h.2]

theorem processOUs_filter_congr (skills : List Skill) (regions : List String)
    (role : String) (assume assume' : String → Except String Creds)
    (aidA : String) (e : String) (hA : assume aidA = Except.error e)
    (hagree : ∀ x, x ≠ aidA → assume' x = assume x) (tree : OrgTree) :
    ∀ (env : Env) (acc acc' : ByOU),
      entriesExcept aidA acc = entriesExcept aidA acc' →
      entriesExcept aidA (processOUs skills regions role assume tree env acc).2 =
        entriesExcept aidA (processOUs skills regions role assume' tree env acc').2 := by
  induction tree with
  | nil => intro env acc acc' h; exact h
  | cons ou rest ih =>
      obtain ⟨ou_name, ou_info⟩ := ou
      intro env acc acc' hacc
      rcases hp : processAccounts skills regions role assume ou_info.accounts env []
        with ⟨env1, oa⟩
      rcases hp' : processAccounts skills regions role assume' ou_info.accounts env []
        with ⟨env1', oa'⟩
      have henv : env1 = env := by
        have h0 := processAccounts_env skills regions role assume ou_info.accounts env []
        rw [hp] at h0
        simpa using h0
      have henv' : env1' = env := by
        have h0 := processAccounts_env skills regions role assume' ou_info.accounts env []
        rw [hp'] at h0
        simpa using h0
      rw [henv] at hp
      rw [henv'] at hp'
      rw [processOUs, hp, processOUs, hp']
      apply ih env
      have hoa : oa.filter (fun kv => kv.1 ≠ aidA) = oa'.filter (fun kv => kv.1 ≠ aidA) := by
        have h0 := processAccounts_filter_congr skills regions role assume assume' aidA e
          hA hagree ou_info.accounts env [] [] rfl
        rw [hp, hp'] at h0
        simpa using h0
      rw [entriesExcept_dictInsert, entriesExcept_dictInsert, hacc, hoa]

theorem setdefault_congr (aidA : String) (b b' : ByOU)
    (h : entriesExcept aidA b = entriesExcept aidA b') :
    entriesExcept aidA (setdefaultManagement b) =
      entriesExcept aidA (setdefaultManagement b') := by
  have hkeys : b.map Prod.fst = b'.map Prod.fst := by
    have h0 := congrArg (List.map Prod.fst) h
    rw [entriesExcept_keys, entriesExcept_keys] at h0
    exact h0
  unfold setdefaultManagement
  rw [any_fst_congr (fun k => decide (k = "Management")) b b' hkeys]
  cases hval : b'.any (fun kv => decide (kv.1 = "Management"))
  · simp only [Bool.false_eq_true, if_false]
    rw [entriesExcept_append, entriesExcept_append, h]
  · simp only [if_true]
    exact h

theorem insertMgmt_congr (aidA mgmt_id : String) (hne : mgmt_id ≠ aidA)
    (d : AcctData) :
    ∀ b : ByOU,
      entriesExcept aidA (insertManagementAccount b mgmt_id d) =
        insertManagementAccount (entriesExcept aidA b) mgmt_id d := by
  intro b
  unfold insertManagementAccount entriesExcept
  rw [List.map_map, List.map_map]
  apply List.map_congr_left
  intro kv _
  by_cases h : kv.1 = "Management"
  · simp only [Function.comp, h, if_true]
    rw [show (fun kv : String × AcctData => decide ¬kv.1 = aidA) =
          (fun kv : String × AcctData => (fun s => decide ¬s = aidA) kv.1) from rfl]
    rw [filter_dictInsert_true (fun s => decide ¬s = aidA) mgmt_id d (by simp [hne])]
  · simp [Function.comp, h]

theorem processOUs_values (skills : List Skill) (regions : List String)
    (role : String) (assume : String → Except String Creds) (tree : OrgTree) :
    ∀ (env : Env) (acc : ByOU) (entry : String × List (String × AcctData)),
      entry ∈ (processOUs skills regions role assume tree env acc).2 →
      entry ∈ acc ∨
        ∃ (info : OUInfo) (env' : Env),
          entry.2 = (processAccounts skills regions role assume info.accounts env' []).2 := by
  induction tree with
  | nil => intro env acc entry h; left; exact h
  | cons ou rest ih =>
      obtain ⟨ou_name, ou_info⟩ := ou
      intro env acc entry h
      rcases hp : processAccounts skills regions role assume ou_info.accounts env []
        with ⟨env1, oa⟩
      rw [processOUs, hp] at h
      rcases ih env1 (dictInsert acc ou_name oa) entry h with h1 | h1
      · rcases mem_dictInsert acc ou_name oa entry h1 with h2 | h2
        · left; exact h2
        · right
          refine ⟨ou_info, env, ?_⟩
          rw [h2, hp]
      · right; exact h1

theorem mem_setdefault (b : ByOU) (entry : String × List (String × AcctData))
    (h : entry ∈ setdefaultManagement b) :
    entry ∈ b ∨ entry = ("Management", []) := by
  unfold setdefaultManagement at h
  split at h
  · left; exact h
  · rcases List.mem_append.mp h with h1 | h1
    · left; exact h1
    · right; simpa using h1

theorem mem_insertMgmt (b : ByOU) (mgmt_id : String) (d : AcctData)
    (entry : String × List (String × AcctData))
    (h : entry ∈ insertManagementAccount b mgmt_id d) :
    ∃ e0 ∈ b,
      entry = if e0.1 = "Management" then (e0.1, dictInsert e0.2 mgmt_id d) else e0 := by
  unfold insertManagementAccount at h
  obtain ⟨e0, he0, heq⟩ := List.mem_map.mp h
  exact ⟨e0, he0, heq.symm⟩

theorem assumeFailMsg_ne_empty (role aid e : String) :
    assumeFailMsg role aid e ≠ "" := by
  intro h
  have h1 := congrArg String.length h
  simp [String.length_append, assumeFailMsg] at h1
  exact absurd h1.1.1.1.1.1 (by decide)

theorem orgScanRun_success (skills : List Skill) (role : String)
    (reqRegions : Option (List String)) (p : Option String) (tree : OrgTree)
    (regionsRes : Except String (List String)) (mgmt_id : String)
    (assume : String → Except String Creds) (env : Env) (regions : List String)
    (hreg : resolveRegions reqRegions regionsRes = Except.ok regions)
    (hmgmt : ∀ s ∈ skills, ∃ r, s.scan regions p (some mgmt_id) env = Except.ok r) :
    ∃ d, scanManagementLoop regions p mgmt_id env skills initMgmtData = Except.ok d ∧
      (orgScanRun skills role reqRegions p (Except.ok tree) regionsRes
          (Except.ok mgmt_id) assume env).2 =
        JobOutcome.completed
          ⟨insertManagementAccount
              (setdefaultManagement
                (processOUs skills regions role assume tree env []).2)
              mgmt_id d,
            summarize
              (insertManagementAccount
                (setdefaultManagement
                  (processOUs skills regions role assume tree env []).2)
                mgmt_id d)⟩ := by
  obtain ⟨d, hd⟩ := scanManagementLoop_ok regions p mgmt_id env skills initMgmtData hmgmt
  refine ⟨d, hd, ?_⟩
  unfold orgScanRun
  rw [hreg]
  dsimp only
  rcases hp : processOUs skills regions role assume tree env [] with ⟨env1, B⟩
  have henv : env1 = env := by
    have h0 := processOUs_env skills regions role assume tree env []
    rw [hp] at h0
    simpa using h0
  rw [henv]
  dsimp only
  rw [hd]

/-- C5 (amended): whenever an org-scan run completes, the stored summary's
`total_findings` and `total_critical` equal the exact sums of the
per-account totals over every account entry in every OU (management
included), for every org-tree shape — zero OUs, OUs with zero accounts,
management-only trees included — and `total_monthly_impact` equals that
sum ROUNDED to two decimals (which can differ from the exact sum — see the
counterexample). -/
theorem org_summary_totals_of_run (skills : List Skill) (role : String)
    (reqRegions : Option (List String)) (p : Option String)
    (treeRes : Except String OrgTree) (regionsRes : Except String (List String))
    (mgmtIdRes : Except String String) (assume : String → Except String Creds)
    (env : Env) (org : OrgResult)
    (h : (orgScanRun skills role reqRegions p treeRes regionsRes mgmtIdRes
        assume env).2 = JobOutcome.completed org) :
    org.summary.total_findings =
        ((allAcctEntries org.by_ou).map (fun a => a.findings_count)).sum ∧
      org.summary.total_critical =
        ((allAcctEntries org.by_ou).map (fun a => a.critical_count)).sum ∧
      org.summary.total_monthly_impact =
        round2 (((allAcctEntries org.by_ou).map (fun a => a.monthly_impact)).sum) := by
  unfold orgScanRun at h
  rcases treeRes with e | tree
  · simp at h
  rcases hr : resolveRegions reqRegions regionsRes with e | regions
  · rw [hr] at h; simp at h
  rw [hr] at h
  rcases mgmtIdRes with e | mgmt_id
  · simp at h
  dsimp only at h
  rcases hp : processOUs skills regions role assume tree env [] with ⟨env1, B⟩
  rw [hp] at h
  dsimp only at h
  rcases hm : scanManagementLoop regions p mgmt_id env1 skills initMgmtData with e | d
  · rw [hm] at h; simp at h
  rw [hm] at h
  dsimp only at h
  simp only [JobOutcome.completed.injEq] at h
  subst h
  exact summarize_flat _

theorem merged_error_entries (skills : List Skill) (regions : List String)
    (role : String) (assume : String → Except String Creds) (tree : OrgTree)
    (env : Env) (mgmt_id : String) (mgmt_d : AcctData) (aidA e : String)
    (hA : assume aidA = Except.error e) (hne : mgmt_id ≠ aidA) :
    ∀ ouEntry ∈ insertManagementAccount
        (setdefaultManagement
          (processOUs skills regions role assume tree env []).2)
        mgmt_id mgmt_d,
      ∀ kv ∈ ouEntry.2, kv.1 = aidA →
        kv.2.findings_count = 0 ∧ kv.2.critical_count = 0 ∧
          kv.2.monthly_impact = 0 ∧ kv.2.skills = [] ∧
          kv.2.error = some (assumeFailMsg role aidA e) := by
  intro ouEntry hou kv hkv hkey
  obtain ⟨e0, he0, heq⟩ := mem_insertMgmt _ mgmt_id mgmt_d ouEntry hou
  have hkv0 : kv ∈ e0.2 := by
    by_cases h : e0.1 = "Management"
    · rw [heq, if_pos h] at hkv
      simp only at hkv
      rcases mem_dictInsert e0.2 mgmt_id mgmt_d kv hkv with h1 | h1
      · exact h1
      · exfalso
        apply hne
        rw [← hkey, h1]
    · rw [heq, if_neg h] at hkv
      exact hkv
  rcases mem_setdefault _ e0 he0 with h1 | h1
  · rcases processOUs_values skills regions role assume tree env [] e0 h1 with h2 | h2
    · simp at h2
    · obtain ⟨info, env', hB⟩ := h2
      rw [hB] at hkv0
      rcases processAccounts_mem skills regions role assume info.accounts env' [] kv
        hkv0 with h3 | h3
      · simp at h3
      · obtain ⟨a, ha, hid, env'', hkd⟩ := h3
        have hax : assume a.id = Except.error e := by
          rw [hid, hkey]
          exact hA
        have hshape := processAccount_error_shape skills regions role assume env'' a e hax
        rw [hkd, hshape, hid, hkey]
        exact ⟨rfl, rfl, rfl, rfl, rfl⟩
  · rw [h1] at hkv0
    simp at hkv0

theorem updateJob_error (j : ScanJob) (kw : UpdateArgs) (t : Nat) :
    (updateJob j kw t).error = kw.error.getD j.error := by
  unfold updateJob
  split <;> rfl

theorem taskFinal_status (store : JobStore) (jobId : String) (j0 : ScanJob)
    (kw1 kw2 : UpdateArgs) (t1 t2 : Nat) (st : ScanJobStatus)
    (hstore : store.get jobId = some j0) (hs2 : kw2.status = some st) :
    (((store.update jobId kw1 t1).update jobId kw2 t2).get jobId).map
        (fun j => j.status) = some st := by
  have h1 := jobstore_get_update_self store jobId kw1 t1 j0 hstore
  have h2 := jobstore_get_update_self _ jobId kw2 t2 _ h1
  rw [h2]
  simp [updateJob_status, hs2]

theorem taskFinal_error (store : JobStore) (jobId : String) (j0 : ScanJob)
    (kw1 kw2 : UpdateArgs) (t1 t2 : Nat) (v : Option String)
    (hstore : store.get jobId = some j0) (he2 : kw2.error = some v) :
    (((store.update jobId kw1 t1).update jobId kw2 t2).get jobId).map
        (fun j => j.error) = some v := by
  have h1 := jobstore_get_update_self store jobId kw1 t1 j0 hstore
  have h2 := jobstore_get_update_self _ jobId kw2 t2 _ h1
  rw [h2]
  simp [updateJob_error, he2]

/-- C4: if role assumption fails for member account `aidA` (and everything
else — region resolution, the management scans — succeeds), the org scan
still completes: `aidA`'s entries carry zero findings and the non-empty
assume-role error note, every other account's entry is exactly what it
would have been had `aidA` not failed, and the job record transitions to
COMPLETED. -/
theorem org_scan_account_isolation (skills : List Skill) (regions : List String)
    (role : String) (reqRegions : Option (List String)) (p : Option String)
    (tree : OrgTree) (regionsRes : Except String (List String)) (mgmt_id : String)
    (assume assume' : String → Except String Creds) (env : Env) (aidA e : String)
    (store : JobStore) (jobId : String) (j0 : ScanJob) (t1 t2 : Nat)
    (hreg : resolveRegions reqRegions regionsRes = Except.ok regions)
    (hA : assume aidA = Except.error e)
    (hagree : ∀ x, x ≠ aidA → assume' x = assume x)
    (hne : mgmt_id ≠ aidA)
    (hmgmt : ∀ s ∈ skills, ∃ r, s.scan regions p (some mgmt_id) env = Except.ok r)
    (hstore : store.get jobId = some j0) :
    AccountIsolationProp skills role reqRegions p tree regionsRes mgmt_id assume
      assume' env aidA e store jobId t1 t2 := by
  obtain ⟨d, hd, hrun⟩ := orgScanRun_success skills role reqRegions p tree regionsRes
    mgmt_id assume env regions hreg hmgmt
  obtain ⟨d', hd', hrun'⟩ := orgScanRun_success skills role reqRegions p tree regionsRes
    mgmt_id assume' env regions hreg hmgmt
  have hdd : d = d' := by
    rw [hd] at hd'
    simpa using hd'
  refine ⟨_, _, hrun, hrun', ?_, ?_, ?_⟩
  · intro ouEntry hou kv hkv hkey
    have h5 := merged_error_entries skills regions role assume tree env mgmt_id d
      aidA e hA hne ouEntry hou kv hkv hkey
    exact ⟨h5.1, h5.2.1, h5.2.2.1, h5.2.2.2.1, h5.2.2.2.2,
      assumeFailMsg_ne_empty role aidA e⟩
  · show entriesExcept aidA
        (insertManagementAccount
          (setdefaultManagement
            (processOUs skills regions role assume tree env []).2) mgmt_id d) =
      entriesExcept aidA
        (insertManagementAccount
          (setdefaultManagement
            (processOUs skills regions role assume' tree env []).2) mgmt_id d')
    rw [← hdd]
    rw [insertMgmt_congr aidA mgmt_id hne d, insertMgmt_congr aidA mgmt_id hne d]
    exact congrArg (fun b => insertManagementAccount b mgmt_id d)
      (setdefault_congr aidA _ _
        (processOUs_filter_congr skills regions role assume assume' aidA e hA hagree
          tree env [] [] rfl))
  · unfold orgScanTaskFinal
    rw [hrun]
    exact taskFinal_status store jobId j0 _ _ t1 t2 _ hstore rfl

/-- Witness for `org_scan_account_isolation`: the spec §8 scenario — one OU
with accounts 111 and 222, role assumption denied for 222, one always-green
skill, management account 999. -/
theorem org_scan_account_isolation_witness :
    assumeFail222 "222" = Except.error "AccessDenied" ∧
      AccountIsolationProp [okSkill] "OrganizationAccountAccessRole"
        (some ["us-east-1"]) none treeTwo (Except.error "unused") "999"
        assumeFail222 assumeOk envEmpty "222" "AccessDenied" storeWithJob "job-1"
        1 2 :=
  ⟨rfl,
    org_scan_account_isolation [okSkill] ["us-east-1"] "OrganizationAccountAccessRole"
      (some ["us-east-1"]) none treeTwo (Except.error "unused") "999" assumeFail222
      assumeOk envEmpty "222" "AccessDenied" storeWithJob "job-1" freshJob 1 2 rfl rfl
      (fun x hx => by simp [assumeOk, assumeFail222, hx])
      (by decide)
      (fun s hs => by
        simp only [List.mem_singleton] at hs
        subst hs
        exact ⟨_, rfl⟩)
      (by decide)⟩

/-- C10: the management-account scan runs outside the per-account error
boundary — if one of its scanner invocations raises, the exception reaches
the outer handler and the whole job transitions to FAILED with that error,
for every role-assumption behaviour in the member accounts — whose own
failures, by contrast, are contained per account. -/
theorem org_scan_management_failure (pre post : List Skill) (sbad : Skill)
    (regions : List String) (role : String) (reqRegions : Option (List String))
    (p : Option String) (tree : OrgTree) (regionsRes : Except String (List String))
    (mgmt_id : String) (assume : String → Except String Creds) (env : Env)
    (e : String) (store : JobStore) (jobId : String) (j0 : ScanJob) (t1 t2 : Nat)
    (hreg : resolveRegions reqRegions regionsRes = Except.ok regions)
    (hbad : sbad.scan regions p (some mgmt_id) env = Except.error e)
    (hpre : ∀ s ∈ pre, ∃ r, s.scan regions p (some mgmt_id) env = Except.ok r)
    (hstore : store.get jobId = some j0) :
    ManagementFailureProp pre post sbad role reqRegions p tree regionsRes mgmt_id
      assume env e store jobId t1 t2 := by
  have hfail :
      (orgScanRun (pre ++ sbad :: post) role reqRegions p (Except.ok tree) regionsRes
          (Except.ok mgmt_id) assume env).2 = JobOutcome.failed e := by
    unfold orgScanRun
    rw [hreg]
    dsimp only
    rcases hp : processOUs (pre ++ sbad :: post) regions role assume tree env []
      with ⟨env1, B⟩
    have henv : env1 = env := by
      have h0 := processOUs_env (pre ++ sbad :: post) regions role assume tree env []
      rw [hp] at h0
      simpa using h0
    rw [henv]
    dsimp only
    rw [scanManagementLoop_fails regions p mgmt_id env sbad post e hbad pre
      initMgmtData hpre]
  refine ⟨hfail, ?_, ?_⟩
  · unfold orgScanTaskFinal
    rw [hfail]
    exact taskFinal_status store jobId j0 _ _ t1 t2 _ hstore rfl
  · unfold orgScanTaskFinal
    rw [hfail]
    exact taskFinal_error store jobId j0 _ _ t1 t2 _ hstore rfl

/-- Witness for `org_scan_management_failure`: a single always-raising
skill, one OU with one member account whose role assumption succeeds. -/
theorem org_scan_management_failure_witness :
    failSkill.scan ["us-east-1"] none (some "999") envEmpty = Except.error "boom" ∧
      ManagementFailureProp [] [] failSkill "OrganizationAccountAccessRole"
        (some ["us-east-1"]) none treeOne (Except.error "unused") "999" assumeOk
        envEmpty "boom" storeWithJob "job-1" 1 2 :=
  ⟨rfl,
    org_scan_management_failure [] [] failSkill ["us-east-1"]
      "OrganizationAccountAccessRole" (some ["us-east-1"]) none treeOne
      (Except.error "unused") "999" assumeOk envEmpty "boom" storeWithJob "job-1"
      freshJob 1 2 rfl rfl (fun s hs => absurd hs (List.not_mem_nil s)) (by decide)⟩

/-- Witness for `org_summary_totals_of_run`: the empty org tree with no
skills — the result holds (trivially the management entry only), covering
the empty-tree shape the claim singles out. -/
theorem org_summary_totals_witness :
    (orgScanRun [] "OrganizationAccountAccessRole" (some ["us-east-1"]) none
        (Except.ok []) (Except.error "unused") (Except.ok "999") assumeOk
        envEmpty).2 =
      JobOutcome.completed ⟨c5EmptyMerged, summarize c5EmptyMerged⟩ ∧
      ((summarize c5EmptyMerged).total_findings =
          ((allAcctEntries c5EmptyMerged).map (fun a => a.findings_count)).sum ∧
        (summarize c5EmptyMerged).total_critical =
          ((allAcctEntries c5EmptyMerged).map (fun a => a.critical_count)).sum ∧
        (summarize c5EmptyMerged).total_monthly_impact =
          round2 (((allAcctEntries c5EmptyMerged).map (fun a => a.monthly_impact)).sum)) :=
  ⟨rfl,
    org_summary_totals_of_run [] "OrganizationAccountAccessRole" (some ["us-east-1"])
      none (Except.ok []) (Except.error "unused") (Except.ok "999") assumeOk envEmpty
      ⟨c5EmptyMerged, summarize c5EmptyMerged⟩ rfl⟩

/-- C5 (counterexample): the stored summary rounds the grand impact to two
decimals, so it is NOT always equal to the exact sum of the per-account
impacts: with one member account and the management account each reporting
a 0.001-impact finding, the entries sum to 0.002 while the stored
`total_monthly_impact` is 0. -/
theorem org_summary_rounding_cx :
    outcomeSummaryImpact c5run ≠ outcomeEntryImpactSum c5run ∧
      outcomeSummaryImpact c5run = some 0 ∧
      outcomeEntryImpactSum c5run = some ((1 : ℚ) / 500) := by
  have h1 : outcomeSummaryImpact c5run = some 0 := by
    simp only [c5run, orgScanRun, resolveRegions, processOUs, processAccounts,
      processAccount, runSkillsLoop, saveOldEnv, setCredsEnv, restoreEnv, credEnvKeys,
      addSkillResult, initAcctData, initMgmtData, scanManagementLoop,
      setdefaultManagement, insertManagementAccount, dictInsert, summarize,
      outcomeSummaryImpact, impactSkill, assumeOk, treeOne, stampFinding,
      mkTitleFinding, SkillResult.total_impact, SkillResult.critical_count,
      Env.set, Env.restoreKey, envEmpty, credsFix, List.foldl, List.map, List.any,
      List.filter, List.sum, List.foldr, List.append]
    simp
    norm_num [round2, roundHalfEven]
  have h2 : outcomeEntryImpactSum c5run = some ((1 : ℚ) / 500) := by
    simp only [c5run, orgScanRun, resolveRegions, processOUs, processAccounts,
      processAccount, runSkillsLoop, saveOldEnv, setCredsEnv, restoreEnv, credEnvKeys,
      addSkillResult, initAcctData, initMgmtData, scanManagementLoop,
      setdefaultManagement, insertManagementAccount, dictInsert,
      outcomeEntryImpactSum, allAcctEntries, impactSkill, assumeOk, treeOne,
      stampFinding, mkTitleFinding, SkillResult.total_impact,
      SkillResult.critical_count, Env.set, Env.restoreKey, envEmpty, credsFix,
      List.foldl, List.map, List.any, List.filter, List.sum, List.foldr, List.append]
    simp
    norm_num
  refine ⟨?_, h1, h2⟩
  rw [h1, h2]
  intro hcontra
  simp only [Option.some.injEq] at hcontra
  norm_num at hcontra

/-- C6 (amended): with a known skill name and successful (or bypassed)
region discovery, none of the three submit endpoints raises: each returns
the fresh job id with status `"pending"`, and the `scan_skill` background
task later records either COMPLETED results or the FAILED error in the job
record. -/
theorem submit_no_raise (registry : Registry) (appProfile : Option String)
    (skillName : String) (reqRegions : Option (List String))
    (reqProfile : Option String)
    (getRegionsFor : Option String → Except String (List String))
    (store : JobStore) (newId : String) (now : Nat) (skill : Skill)
    (regions : List String) (reqSkill : Option String)
    (hlook : dictGet registry skillName = some skill)
    (hreg : resolveRegions reqRegions
        (getRegionsFor (resolveProfile reqProfile appProfile)) = Except.ok regions)
    (horg : reqSkill = none ∨ reqSkill = some "" ∨
      ∃ sname s, reqSkill = some sname ∧ dictGet registry sname = some s) :
    SubmitNoRaiseProp registry appProfile skillName reqRegions reqProfile
      getRegionsFor store newId now reqSkill := by
  have hget1 : ((store.create [skillName] newId now).1).get newId =
      some (store.create [skillName] newId now).2 := by
    unfold JobStore.create JobStore.get
    simp [dictGet_dictInsert_self]
  refine ⟨⟨(store.create [skillName] newId now).1, ?_, ?_, ?_⟩, ?_, ?_⟩
  · unfold scan_skill
    rw [hlook]
    dsimp only
    rw [hreg]
    unfold JobStore.create
    rfl
  · rw [hget1]
    rfl
  · intro outcome t1 t2
    constructor
    · cases outcome with
      | ok r =>
          exact taskFinal_status _ newId _ _ _ t1 t2 _ hget1 rfl
      | error e' =>
          exact taskFinal_status _ newId _ _ _ t1 t2 _ hget1 rfl
    · intro e' he
      subst he
      exact taskFinal_error _ newId _ _ _ t1 t2 _ hget1 rfl
  · exact ⟨_, by
      unfold scan_all
      dsimp only
      rw [hreg]
      unfold JobStore.create
      rfl⟩
  · rcases horg with h | h | ⟨sname, s, hs, hlooks⟩
    · subst h
      exact ⟨_, rfl⟩
    · subst h
      exact ⟨_, rfl⟩
    · subst hs
      by_cases he : sname = ""
      · subst he
        exact ⟨_, rfl⟩
      · exact ⟨_, by
          unfold org_scan_submit
          dsimp only
          rw [if_neg he, hlooks]
          unfold JobStore.create
          rfl⟩

/-- Witness for `submit_no_raise`: the one-skill registry, regions supplied
in the request, no skill filter on the org-scan request. -/
theorem submit_no_raise_witness :
    dictGet registryFix "zombie-hunter" = some okSkill ∧
      SubmitNoRaiseProp registryFix none "zombie-hunter" (some ["us-east-1"]) none
        (fun _ => Except.error "unused") storeEmpty "job-1" 0 none :=
  ⟨rfl,
    submit_no_raise registryFix none "zombie-hunter" (some ["us-east-1"]) none
      (fun _ => Except.error "unused") storeEmpty "job-1" 0 okSkill ["us-east-1"]
      none rfl rfl (Or.inl rfl)⟩

/-- C6 (counterexample): when the request carries no region list and region
discovery raises, the exception escapes `scan_skill` itself — the caller
gets the error instead of a job id, although the skill name was valid. -/
theorem submit_region_discovery_escapes_cx :
    scan_skill registryFix none "zombie-hunter" none none
        (fun _ => Except.error "Could not connect to the endpoint URL") storeEmpty
        "job-1" 0 =
      Except.error "Could not connect to the endpoint URL" := rfl
